import Mathlib

/-!
Shallow embedding of the monitoring repository's core logic
(`retriever.py`: `Retriever.getStats`, `Retriever.checkAlert`;
`main.py`: `App.__getResults`, `App.__printResults` scheduling cadence).

Conventions of the embedding:
* An InfluxDB query result (`.raw`) is modelled as `Option (List Record)`.
  `none` models a raw dictionary without a `'series'` key ("no series" for
  the window); `some values` models `data['series'][0]['values']`.
* Each value row `[time, available, status, responseTime]` is a `Record`;
  a Python `None` field is `Option.none`.  Response times and timestamps
  are rationals (exact arithmetic stands in for Python floats).
* A Python runtime fault (uncaught `KeyError` / `ZeroDivisionError`) is
  modelled by returning `Option.none` from the embedded function (for
  `checkAlert`) or by the dedicated `GetStatsResult.fault` constructor
  (for `getStats`).
-/

namespace Monitoring

/-- One row of the `website_availability` series as selected by
`getStats`: the `available`, `status` and `responseTime` fields, each of
which may be absent (`None` in Python). -/
structure Record where
  available : Option Bool
  status : Option Int
  responseTime : Option ℚ
deriving Repr, DecidableEq

/-- The latency statistics carry Python's `float('inf')` sentinel when the
sample set is empty, and an exact rational otherwise. -/
inductive RTStat where
  | inf : RTStat
  | val : ℚ → RTStat
deriving Repr, DecidableEq

/-- The stats dictionary built by `getStats` on success: availability,
the status-code tallies (kept as the raw list of `status` fields, one per
record - a `Counter` of this list in the source), and avg/min/max response
time. -/
structure Stats where
  availability : ℚ
  statusCodes : List (Option Int)
  avgRT : RTStat
  minRT : RTStat
  maxRT : RTStat
deriving Repr, DecidableEq

/-- Outcome of `getStats`: `(False, {})` when the query has no series,
`(True, stats)` on success, or an uncaught `ZeroDivisionError` at
`availability = availables[True] / n` when `n = 0`. -/
inductive GetStatsResult where
  | noData : GetStatsResult
  | ok : Stats → GetStatsResult
  | fault : GetStatsResult
deriving Repr, DecidableEq

/-- Python `min(l, default=float('inf'))`. -/
def listMinD : List ℚ → RTStat
  | [] => RTStat.inf
  | x :: xs => RTStat.val (xs.foldl min x)

/-- Python `max(l, default=float('inf'))`. -/
def listMaxD : List ℚ → RTStat
  | [] => RTStat.inf
  | x :: xs => RTStat.val (xs.foldl max x)

/-- `sum(responseTimes) / nRT` wrapped in `try/except` that yields
`float('inf')` on the empty list (ZeroDivisionError). -/
def avgRTOf (l : List ℚ) : RTStat :=
  if l.length = 0 then RTStat.inf else RTStat.val (l.sum / (l.length : ℚ))

/-- `availables[True] / n` where `availables` is the Counter of the
not-None availability fields and `n = sum(availables.values())`, i.e. the
length of that filtered list. -/
def statsAvailability (availables : List Bool) : ℚ :=
  (availables.count true : ℚ) / (availables.length : ℚ)

/-- `Retriever.getStats` (retriever.py lines 35-98) as a function of the
query result.  The source computes the latency statistics before the
availability division; this does not matter for the outcome because the
latency computations never fault (`min`/`max` have a default, the average
is guarded by `try/except`).  The availability division `availables[True]
/ n` is unguarded: `n = 0` is a runtime fault. -/
def getStats (raw : Option (List Record)) : GetStatsResult :=
  match raw with
  | none => GetStatsResult.noData
  | some values =>
    if (values.filterMap Record.available).length = 0 then
      GetStatsResult.fault
    else
      GetStatsResult.ok
        ⟨statsAvailability (values.filterMap Record.available),
         values.map Record.status,
         avgRTOf (values.filterMap Record.responseTime),
         listMinD (values.filterMap Record.responseTime),
         listMaxD (values.filterMap Record.responseTime)⟩

/-- The per-target alert state (`Retriever.alertData`). -/
structure AlertData where
  alertStatus : Bool
  alertNumber : ℕ
  alertTime : ℚ
deriving Repr, DecidableEq

/-- `Retriever.__init__` sets `alertStatus = False`, `alertNumber = 0`,
`alertTime = datetime.now()`. -/
def initAlertData (now : ℚ) : AlertData := ⟨false, 0, now⟩

/-- The `type` field of a written alert point / notification. -/
inductive NotifKind where
  | alert
  | recovery
deriving Repr, DecidableEq

/-- The notification dictionary returned by `checkAlert`: either
`{"type": None}` or a full record carrying kind, availability, alertTime
and alertNumber (the source renders the number with `str`; we keep the
number itself). -/
inductive Notif where
  | noNews : Notif
  | event : NotifKind → ℚ → ℚ → ℕ → Notif
deriving Repr, DecidableEq

/-- One point written to the `website_alerts` measurement: its `type`
field, its `time` tag (`currentDate`) and the availability at transition
time. -/
structure AlertEvent where
  kind : NotifKind
  time : ℚ
  availability : ℚ
deriving Repr, DecidableEq

/-- The availability computed inside `checkAlert` (retriever.py lines
116-119): `Counter` over the raw `available` column with NO not-None
filter, so `n = sum(availables.values())` is the number of records and
absent availabilities land in the denominator but not the numerator. -/
def alertAvailability (values : List Record) : ℚ :=
  ((values.map Record.available).count (some true) : ℚ) / (values.length : ℚ)

/-- `Retriever.checkAlert` (retriever.py lines 100-186) as a state
transition on `AlertData`, parametrised by the query result for the
2-minute window and by `currentDate = datetime.utcnow()`.  Output: the
new state, the list of points written to the store, and the returned
notification.  `none` models the uncaught fault: a `KeyError` when the
raw result has no `'series'` key, or a `ZeroDivisionError` when the
series' value list is empty. -/
def checkAlert (raw : Option (List Record)) (currentDate : ℚ)
    (st : AlertData) : Option (AlertData × List AlertEvent × Notif) :=
  match raw with
  | none => none
  | some values =>
    if values.length = 0 then none
    else
      if st.alertStatus = true ∧ alertAvailability values ≥ 0.8 then
        some (⟨false, st.alertNumber, st.alertTime⟩,
              [⟨NotifKind.recovery, currentDate, alertAvailability values⟩],
              Notif.event NotifKind.recovery (alertAvailability values)
                currentDate st.alertNumber)
      else if st.alertStatus = true then
        some (st, [],
              Notif.event NotifKind.alert (alertAvailability values)
                st.alertTime st.alertNumber)
      else if alertAvailability values < 0.8 then
        some (⟨true, st.alertNumber + 1, currentDate⟩,
              [⟨NotifKind.alert, currentDate, alertAvailability values⟩],
              Notif.event NotifKind.alert (alertAvailability values)
                currentDate (st.alertNumber + 1))
      else
        some (st, [], Notif.noNews)

/-- Running one `checkAlert` call for its state effect only.  On a fault
the Python exception propagates before any mutation of `alertData`, so
the state is unchanged. -/
def stepAlert (st : AlertData) (inp : Option (List Record) × ℚ) :
    AlertData :=
  match checkAlert inp.1 inp.2 st with
  | some (st', _, _) => st'
  | none => st

/-- Number of records whose `available` field equals `True`. -/
def healthyCount (values : List Record) : ℕ :=
  values.countP (fun r => r.available == some true)

/-- Number of records whose `available` field is not `None`. -/
def presentCount (values : List Record) : ℕ :=
  values.countP (fun r => r.available.isSome)

/-- One step of the report task's countdown (`App.__printResults`,
main.py lines 86-94): a firing with countdown `0` performs the
minute-check and re-arms with countdown `5`; any other firing decrements
the countdown and skips the minute-check.  The returned pair is
`(printMinuteCheck, countdown argument of the next firing)`. -/
def printStep (countdown : ℕ) : Bool × ℕ :=
  if countdown = 0 then (true, 5) else (false, countdown - 1)

/-- Countdown argument received by the `k`-th firing of the report task
(0-based).  `App.run` (main.py line 125) arms the first firing with
countdown `5`. -/
def countdownAt : ℕ → ℕ
  | 0 => 5
  | k + 1 => (printStep (countdownAt k)).2

/-- Whether the `k`-th report firing computes the 60-minute window. -/
def printMinuteCheckAt (k : ℕ) : Bool :=
  (printStep (countdownAt k)).1

/-- Window sizes (in minutes) passed to `getStats` by the `k`-th report
firing (main.py lines 101-104): 2 and 10 always, 60 only under
`printMinuteCheck`. -/
def windowsAt (k : ℕ) : List ℕ :=
  if printMinuteCheckAt k then [2, 10, 60] else [2, 10]

/-- The observable actions of one firing of `App.__getResults` (main.py
lines 80-84), in program order. -/
inductive ProbeAction where
  | armTimer : ℚ → ProbeAction
  | probe : ProbeAction
deriving Repr, DecidableEq

/-- `App.__getResults` first arms `threading.Timer(checkInterval, ...)`
and starts it, and only then calls `monitor.get()`. -/
def getResultsActions (checkInterval : ℚ) : List ProbeAction :=
  [ProbeAction.armTimer checkInterval, ProbeAction.probe]

/-- Recogniser for the probe action. -/
def isProbe : ProbeAction → Bool
  | ProbeAction.probe => true
  | ProbeAction.armTimer _ => false

/-- Start time of the `k`-th firing of the probe task for one target.
Because the next timer is armed at the top of `__getResults` (before the
probe runs), each firing starts `checkInterval` after the previous one
started. -/
def fireStart (s0 checkInterval : ℚ) : ℕ → ℚ
  | 0 => s0
  | k + 1 => fireStart s0 checkInterval k + checkInterval

/-- Completion time of the `k`-th firing when the probe body of firing
`k` takes `dur k` seconds. -/
def probeCompletion (s0 checkInterval : ℚ) (dur : ℕ → ℚ) (k : ℕ) : ℚ :=
  fireStart s0 checkInterval k + dur k

/-! ### Helper lemmas -/

/-- Exhaustive description of the four branches a successful
`checkAlert` call can take. -/
lemma checkAlert_some (raw : Option (List Record)) (t : ℚ) (st : AlertData)
    (out : AlertData × List AlertEvent × Notif)
    (h : checkAlert raw t st = some out) :
    ∃ values, raw = some values ∧ values ≠ [] ∧
      ((st.alertStatus = true ∧ alertAvailability values ≥ 0.8 ∧
          out = (⟨false, st.alertNumber, st.alertTime⟩,
                 [⟨NotifKind.recovery, t, alertAvailability values⟩],
                 Notif.event NotifKind.recovery (alertAvailability values) t
                   st.alertNumber)) ∨
       (st.alertStatus = true ∧ ¬ alertAvailability values ≥ 0.8 ∧
          out = (st, [],
                 Notif.event NotifKind.alert (alertAvailability values)
                   st.alertTime st.alertNumber)) ∨
       (st.alertStatus = false ∧ alertAvailability values < 0.8 ∧
          out = (⟨true, st.alertNumber + 1, t⟩,
                 [⟨NotifKind.alert, t, alertAvailability values⟩],
                 Notif.event NotifKind.alert (alertAvailability values) t
                   (st.alertNumber + 1))) ∨
       (st.alertStatus = false ∧ ¬ alertAvailability values < 0.8 ∧
          out = (st, [], Notif.noNews))) := by
  cases raw with
  | none => simp [checkAlert] at h
  | some values =>
    refine ⟨values, rfl, ?_, ?_⟩
    · intro hnil
      rw [hnil] at h
      simp [checkAlert] at h
    · simp only [checkAlert] at h
      split at h
      · exact absurd h (by simp)
      · split at h
        · next hc =>
            exact Or.inl ⟨hc.1, hc.2, (Option.some.inj h).symm⟩
        · next hc =>
            split at h
            · next hA =>
                refine Or.inr (Or.inl ⟨hA, fun hge => hc ⟨hA, hge⟩,
                  (Option.some.inj h).symm⟩)
            · next hA =>
                have hF : st.alertStatus = false := by
                  revert hA; cases st.alertStatus <;> simp
                split at h
                · next hlt =>
                    exact Or.inr (Or.inr (Or.inl
                      ⟨hF, hlt, (Option.some.inj h).symm⟩))
                · next hlt =>
                    exact Or.inr (Or.inr (Or.inr
                      ⟨hF, hlt, (Option.some.inj h).symm⟩))

/-- A single `stepAlert` never decreases the alert number. -/
lemma stepAlert_alertNumber_le (st : AlertData)
    (inp : Option (List Record) × ℚ) :
    st.alertNumber ≤ (stepAlert st inp).alertNumber := by
  unfold stepAlert
  cases hc : checkAlert inp.1 inp.2 st with
  | none => exact le_refl _
  | some out =>
    rcases out with ⟨a, b, c⟩
    obtain ⟨v, -, -, hbr⟩ := checkAlert_some _ _ _ _ hc
    rcases hbr with ⟨h1, h2, h3⟩ | ⟨h1, h2, h3⟩ | ⟨h1, h2, h3⟩ | ⟨h1, h2, h3⟩ <;>
      simp only [Prod.mk.injEq] at h3 <;>
      obtain ⟨hst', -, -⟩ := h3 <;> subst hst' <;> simp

/-- The alert number is non-decreasing along any sequence of
`checkAlert` calls. -/
lemma foldl_alertNumber_mono (inputs : List (Option (List Record) × ℚ))
    (s0 : AlertData) :
    s0.alertNumber ≤ (inputs.foldl stepAlert s0).alertNumber := by
  induction inputs generalizing s0 with
  | nil => simp
  | cons i is ih =>
    rw [List.foldl_cons]
    exact le_trans (stepAlert_alertNumber_le s0 i) (ih (stepAlert s0 i))

/-- Full characterisation of a successful `getStats` call on a series. -/
lemma getStats_some_iff (values : List Record) (s : Stats) :
    getStats (some values) = GetStatsResult.ok s ↔
      (values.filterMap Record.available).length ≠ 0 ∧
      s = ⟨statsAvailability (values.filterMap Record.available),
           values.map Record.status,
           avgRTOf (values.filterMap Record.responseTime),
           listMinD (values.filterMap Record.responseTime),
           listMaxD (values.filterMap Record.responseTime)⟩ := by
  simp only [getStats]
  split
  · next hlen => simp [hlen]
  · next hlen =>
      constructor
      · intro h
        exact ⟨hlen, (GetStatsResult.ok.inj h).symm⟩
      · rintro ⟨-, rfl⟩
        rfl

/-- The length of the not-None availability column is `presentCount`. -/
lemma length_filterMap_available (values : List Record) :
    (values.filterMap Record.available).length = presentCount values := by
  induction values with
  | nil => rfl
  | cons r rs ih =>
    cases h : r.available <;>
      simp [List.filterMap_cons, h, presentCount, List.countP_cons, ih]

/-- Occurrences of `True` in the not-None availability column. -/
lemma count_filterMap_available (values : List Record) :
    (values.filterMap Record.available).count true = healthyCount values := by
  induction values with
  | nil => rfl
  | cons r rs ih =>
    cases h : r.available with
    | none => simp [List.filterMap_cons, h, healthyCount, List.countP_cons, ih]
    | some b =>
      cases b <;>
        simp [List.filterMap_cons, h, healthyCount, List.countP_cons,
          List.count_cons, ih]

/-- Occurrences of `True` in the raw availability column (as tallied by
`checkAlert`'s unfiltered Counter). -/
lemma count_map_available (values : List Record) :
    (values.map Record.available).count (some true) = healthyCount values := by
  induction values with
  | nil => rfl
  | cons r rs ih =>
    simp [List.count_cons, healthyCount, List.countP_cons, ih]

/-- The availability computed by `getStats`, in terms of record counts. -/
lemma statsAvailability_filterMap (values : List Record) :
    statsAvailability (values.filterMap Record.available) =
      (healthyCount values : ℚ) / (presentCount values : ℚ) := by
  unfold statsAvailability
  rw [count_filterMap_available, length_filterMap_available]

/-- A record with a present availability makes `getStats`'s denominator
non-zero. -/
lemma filterMap_available_length_ne_zero (values : List Record)
    (hex : ∃ r ∈ values, r.available ≠ none) :
    (values.filterMap Record.available).length ≠ 0 := by
  rw [length_filterMap_available]
  have hpos : 0 < presentCount values := by
    unfold presentCount
    refine List.countP_pos_iff.mpr ?_
    obtain ⟨r, hr, hne⟩ := hex
    exact ⟨r, hr, by simpa [Option.isSome_iff_ne_none] using hne⟩
  omega

/-- Closed form of the report task's countdown argument. -/
lemma countdownAt_eq (k : ℕ) : countdownAt k = 5 - k % 6 := by
  induction k with
  | zero => rfl
  | succ k ih =>
    have h6 : k % 6 < 6 := Nat.mod_lt _ (by norm_num)
    show (printStep (countdownAt k)).2 = 5 - (k + 1) % 6
    rw [ih]
    unfold printStep
    by_cases h5 : k % 6 = 5
    · have hz : (k + 1) % 6 = 0 := by omega
      simp [h5, hz]
    · have hs : (k + 1) % 6 = k % 6 + 1 := by omega
      rw [if_neg (by omega), hs]
      omega

/-! ### Claim theorems -/

/-- C1: for every target the alert sequence number starts at 0, is
non-decreasing across successive `checkAlert` calls, increases by
exactly 1 on each Healthy→Alerting transition, and is unchanged by an
Alerting→Healthy recovery and by steady-state evaluations (in particular,
consecutive Alerting evaluations with ratio < 0.8 never change it). -/
theorem alertNumber_transition_spec (raw : Option (List Record)) (t : ℚ)
    (st st' : AlertData) (evs : List AlertEvent) (ntf : Notif)
    (h : checkAlert raw t st = some (st', evs, ntf)) :
    st.alertNumber ≤ st'.alertNumber ∧
    (st'.alertNumber = st.alertNumber + 1 ↔
      st.alertStatus = false ∧ st'.alertStatus = true) ∧
    (st.alertStatus = true ∧ st'.alertStatus = false →
      st'.alertNumber = st.alertNumber) ∧
    (st.alertStatus = st'.alertStatus → st'.alertNumber = st.alertNumber) ∧
    (∀ t0 : ℚ, (initAlertData t0).alertNumber = 0) ∧
    (∀ inputs : List (Option (List Record) × ℚ), ∀ s0 : AlertData,
      s0.alertNumber ≤ (inputs.foldl stepAlert s0).alertNumber) := by
  obtain ⟨values, -, -, hbr⟩ := checkAlert_some _ _ _ _ h
  refine ⟨?_, ?_, ?_, ?_, fun t0 => rfl,
    fun inputs s0 => foldl_alertNumber_mono inputs s0⟩ <;>
    rcases hbr with ⟨h1, h2, h3⟩ | ⟨h1, h2, h3⟩ | ⟨h1, h2, h3⟩ | ⟨h1, h2, h3⟩ <;>
    simp only [Prod.mk.injEq] at h3 <;>
    obtain ⟨hst', -, -⟩ := h3 <;>
    subst hst' <;>
    simp [h1]

/-- Witness for C1 at a concrete Healthy→Alerting transition (one record,
available = False, ratio 0 < 0.8). -/
theorem alertNumber_transition_spec_witness :
    (initAlertData 0).alertNumber ≤ (AlertData.mk true 1 0).alertNumber :=
  (alertNumber_transition_spec (some [⟨some false, none, none⟩]) 0
    (initAlertData 0) (AlertData.mk true 1 0)
    [⟨NotifKind.alert, 0, 0⟩] (Notif.event NotifKind.alert 0 0 1)
    (by norm_num [checkAlert, alertAvailability, initAlertData])).1

/-- C3: an `AlertEvent` is written exactly on state transitions: one
record with kind `alert` on every Healthy→Alerting transition, one with
kind `recovery` on every Alerting→Healthy transition, and no write on
steady-state evaluations. -/
theorem alertEvents_transition_spec (raw : Option (List Record)) (t : ℚ)
    (st st' : AlertData) (evs : List AlertEvent) (ntf : Notif)
    (h : checkAlert raw t st = some (st', evs, ntf)) :
    (st.alertStatus = false ∧ st'.alertStatus = true →
      ∃ av, evs = [⟨NotifKind.alert, t, av⟩]) ∧
    (st.alertStatus = true ∧ st'.alertStatus = false →
      ∃ av, evs = [⟨NotifKind.recovery, t, av⟩]) ∧
    (st.alertStatus = st'.alertStatus → evs = []) := by
  obtain ⟨values, -, -, hbr⟩ := checkAlert_some _ _ _ _ h
  refine ⟨?_, ?_, ?_⟩ <;>
    rcases hbr with ⟨h1, h2, h3⟩ | ⟨h1, h2, h3⟩ | ⟨h1, h2, h3⟩ | ⟨h1, h2, h3⟩ <;>
    simp only [Prod.mk.injEq] at h3 <;>
    obtain ⟨hst', hevs, -⟩ := h3 <;>
    subst hst' <;> subst hevs <;>
    simp [h1]

/-- Witness for C3 at the same kind of Healthy→Alerting transition. -/
theorem alertEvents_transition_spec_witness :
    ∃ av, [(⟨NotifKind.alert, (0 : ℚ), (0 : ℚ)⟩ : AlertEvent)] =
      [⟨NotifKind.alert, (0 : ℚ), av⟩] :=
  (alertEvents_transition_spec (some [⟨some false, none, none⟩]) 0
    (initAlertData 0) (AlertData.mk true 1 0)
    [⟨NotifKind.alert, 0, 0⟩] (Notif.event NotifKind.alert 0 0 1)
    (by norm_num [checkAlert, alertAvailability, initAlertData])).1
    ⟨rfl, rfl⟩

/-- C6: when the 2-minute window has no records at all (the store
reports no series, or an empty series), `checkAlert` faults instead of
returning a notification: the zero-records case is unguarded. -/
theorem checkAlert_no_records_fault (t : ℚ) (st : AlertData) :
    checkAlert none t st = none ∧ checkAlert (some []) t st = none :=
  ⟨rfl, rfl⟩

/-- C2 counterexample: the store reports a series (one record, absent
availability), yet `getStats` neither has a non-zero denominator nor
reports "no data": it faults with the unguarded zero division at
`availability = availables[True] / n`. -/
theorem getStats_zero_denominator_fault :
    getStats (some [⟨none, none, some 1⟩]) = GetStatsResult.fault := rfl

/-- C2 amended: `getStats` faults on a zero-denominator availability
computation exactly when the store reports a series all of whose records
have an absent availability; with no series it reports "no data", and
with at least one present-availability record the denominator is
non-zero by construction. -/
theorem getStats_fault_characterization (raw : Option (List Record)) :
    getStats raw = GetStatsResult.fault ↔
      ∃ values, raw = some values ∧ ∀ r ∈ values, r.available = none := by
  cases raw with
  | none => simp [getStats]
  | some values =>
    simp only [getStats]
    split
    · next hlen =>
        refine iff_of_true rfl ⟨values, rfl, ?_⟩
        exact List.filterMap_eq_nil_iff.mp (List.length_eq_zero.mp hlen)
    · next hlen =>
        refine iff_of_false (by simp) ?_
        rintro ⟨v, hv, hall⟩
        obtain rfl : values = v := Option.some.inj hv
        exact hlen (by
          rw [List.length_eq_zero]
          exact List.filterMap_eq_nil_iff.mpr hall)

/-- C4 counterexample: a window with one record (whose availability is
absent) does not yield `found = true`: `getStats` faults instead. -/
theorem getStats_single_record_not_found :
    getStats (some [⟨none, some 200, some 3⟩]) = GetStatsResult.fault ∧
    [(⟨none, some 200, some 3⟩ : Record)].length = 1 :=
  ⟨rfl, rfl⟩

/-- C4 amended: `getStats` returns `found = false` with an empty
snapshot exactly when the store reports no series, and returns
`found = true` with a full snapshot whenever the window contains at
least one record with a non-absent availability (in particular when all
response times are absent); a non-empty window whose records all have
absent availability faults instead. -/
theorem getStats_found_characterization (raw : Option (List Record)) :
    (getStats raw = GetStatsResult.noData ↔ raw = none) ∧
    (∀ values, raw = some values → (∃ r ∈ values, r.available ≠ none) →
      ∃ s, getStats raw = GetStatsResult.ok s) := by
  constructor
  · cases raw with
    | none => simp [getStats]
    | some values =>
      simp only [getStats]
      split <;> simp
  · rintro values rfl hex
    exact ⟨_, (getStats_some_iff _ _).mpr
      ⟨filterMap_available_length_ne_zero values hex, rfl⟩⟩

/-- Witness for C4's amended claim on a one-record window with present
availability. -/
theorem getStats_found_characterization_witness :
    ∃ s, getStats (some [⟨some false, some 500, none⟩]) =
      GetStatsResult.ok s :=
  (getStats_found_characterization (some [⟨some false, some 500, none⟩])).2
    _ rfl ⟨⟨some false, some 500, none⟩, by simp, by simp⟩

/-- C5: whenever `getStats` returns a snapshot, its availability equals
(count of availability=true) / (count of non-absent availability)
exactly, lies in [0,1], and is unchanged by adding to the window only
records with absent availability. -/
theorem availability_formula_spec (values : List Record) (s : Stats)
    (h : getStats (some values) = GetStatsResult.ok s) :
    s.availability =
      (healthyCount values : ℚ) / (presentCount values : ℚ) ∧
    0 ≤ s.availability ∧ s.availability ≤ 1 ∧
    ∀ extra : List Record, (∀ r ∈ extra, r.available = none) →
      ∃ s', getStats (some (values ++ extra)) = GetStatsResult.ok s' ∧
        s'.availability = s.availability := by
  obtain ⟨hne, rfl⟩ := (getStats_some_iff values s).mp h
  have hform := statsAvailability_filterMap values
  have hp : 0 < presentCount values := by
    rw [length_filterMap_available] at hne; omega
  have hHP : healthyCount values ≤ presentCount values := by
    unfold healthyCount presentCount
    refine List.countP_mono_left fun r hr hps => ?_
    rw [Option.isSome_iff_exists]
    exact ⟨true, by simpa using hps⟩
  have hpQ : (0 : ℚ) < (presentCount values : ℚ) := by exact_mod_cast hp
  refine ⟨hform, ?_, ?_, ?_⟩
  · rw [hform]
    positivity
  · rw [hform, div_le_one hpQ]
    exact_mod_cast hHP
  · intro extra hex
    have hfm : (values ++ extra).filterMap Record.available =
        values.filterMap Record.available := by
      rw [List.filterMap_append, List.filterMap_eq_nil_iff.mpr hex,
        List.append_nil]
    refine ⟨_, (getStats_some_iff _ _).mpr ⟨?_, rfl⟩, ?_⟩
    · rw [hfm]; exact hne
    · simp [hfm]

/-- Witness for C5 on a one-record window (available = True,
response time 2). -/
theorem availability_formula_spec_witness :
    (Stats.mk 1 [none] (RTStat.val 2) (RTStat.val 2)
        (RTStat.val 2)).availability =
      (healthyCount [(⟨some true, none, some 2⟩ : Record)] : ℚ) /
        (presentCount [(⟨some true, none, some 2⟩ : Record)] : ℚ) :=
  (availability_formula_spec [⟨some true, none, some 2⟩]
    (Stats.mk 1 [none] (RTStat.val 2) (RTStat.val 2) (RTStat.val 2))
    (by norm_num [getStats, statsAvailability, avgRTOf, listMinD, listMaxD,
      List.filterMap_cons, List.count_cons])).1

/-- C7: if the window has at least one record with present availability
but every response time is absent, `getStats` returns `found = true` and
the snapshot's minRT, maxRT and avgRT all equal the "unbounded" sentinel
(positive infinity), without any fault. -/
theorem getStats_absent_rt_spec (values : List Record)
    (h1 : ∃ r ∈ values, r.available ≠ none)
    (h2 : ∀ r ∈ values, r.responseTime = none) :
    ∃ s, getStats (some values) = GetStatsResult.ok s ∧
      s.minRT = RTStat.inf ∧ s.maxRT = RTStat.inf ∧
      s.avgRT = RTStat.inf := by
  have hrt : values.filterMap Record.responseTime = [] :=
    List.filterMap_eq_nil_iff.mpr h2
  exact ⟨_, (getStats_some_iff _ _).mpr
    ⟨filterMap_available_length_ne_zero values h1, rfl⟩,
    by simp [hrt, listMinD, listMaxD, avgRTOf]⟩

/-- Witness for C7 on a one-record window with availability present and
response time absent. -/
theorem getStats_absent_rt_spec_witness :
    ∃ s, getStats (some [⟨some true, some 200, none⟩]) =
        GetStatsResult.ok s ∧
      s.minRT = RTStat.inf ∧ s.maxRT = RTStat.inf ∧
      s.avgRT = RTStat.inf :=
  getStats_absent_rt_spec [⟨some true, some 200, none⟩]
    ⟨⟨some true, some 200, none⟩, by simp, by simp⟩
    (fun r hr => by rw [List.mem_singleton.mp hr])

/-- C8 counterexample: the first long-window augmentation is at firing
index 5 (0-based; the 6th firing), but the next one is at index 11, not
index 10 — the cadence is every 6th firing, not every 5th. -/
theorem reportCadence_not_every_fifth :
    printMinuteCheckAt 5 = true ∧ printMinuteCheckAt 10 = false ∧
    printMinuteCheckAt 11 = true := by decide

/-- C8 amended: the report task starts with an initial countdown of 5
ticks, so the 60-minute augmentation happens on firings with 0-based
index ≡ 5 (mod 6) — one augmented firing for every 6 fires, with 5
countdown firings between augmentations — while the 2- and 10-minute
windows are computed on every firing. -/
theorem reportCadence_spec (k : ℕ) :
    (printMinuteCheckAt k = true ↔ k % 6 = 5) ∧
    2 ∈ windowsAt k ∧ 10 ∈ windowsAt k ∧
    (60 ∈ windowsAt k ↔ printMinuteCheckAt k = true) := by
  have h6 : k % 6 < 6 := Nat.mod_lt _ (by norm_num)
  have hiff : printMinuteCheckAt k = true ↔ k % 6 = 5 := by
    unfold printMinuteCheckAt printStep
    rw [countdownAt_eq]
    by_cases h : 5 - k % 6 = 0
    · rw [if_pos h]
      simp only [true_iff]
      omega
    · rw [if_neg h]
      simp only [Bool.false_eq_true, false_iff]
      omega
  refine ⟨hiff, ?_, ?_, ?_⟩ <;>
    unfold windowsAt <;>
    by_cases hc : printMinuteCheckAt k = true <;>
    simp [hc]

/-- C9 counterexample: with `checkInterval = 1` and a probe that takes 2
seconds, the second firing starts strictly before the first one
completes (the timer is armed at the top of `__getResults`, before the
probe runs), and its start time is not completion + interval. -/
theorem probeSchedule_not_completion_based :
    fireStart 0 1 1 < probeCompletion 0 1 (fun _ => 2) 0 ∧
    fireStart 0 1 1 ≠ probeCompletion 0 1 (fun _ => 2) 0 + 1 := by
  have h1 : fireStart 0 1 1 = fireStart 0 1 0 + 1 := rfl
  have h0 : fireStart 0 1 0 = 0 := rfl
  constructor <;> rw [h1, h0] <;> norm_num [probeCompletion, h0]

/-- C9 amended: each firing of `__getResults` triggers exactly one probe
but arms the next timer first, so the next firing starts exactly
`checkInterval` after the current firing starts (a fixed grid from the
task's start), not `checkInterval` after the prior execution completes;
overlap with the next instance is possible when the probe outlives the
interval. -/
theorem probeSchedule_spec (s0 checkInterval : ℚ) (k : ℕ) :
    (getResultsActions checkInterval).countP isProbe = 1 ∧
    (getResultsActions checkInterval).head? =
      some (ProbeAction.armTimer checkInterval) ∧
    fireStart s0 checkInterval (k + 1) =
      fireStart s0 checkInterval k + checkInterval :=
  ⟨rfl, rfl, rfl⟩

/-- C10: `checkAlert` computes its 2-minute ratio with every returned
record in the denominator (absent availabilities count as unhealthy), so
on the same store state its ratio is at most — and, as soon as the
window has an absent-availability record and a True record, strictly
lower than — the availability returned by `getStats`. -/
theorem alert_vs_stats_availability (values : List Record) (s : Stats)
    (h : getStats (some values) = GetStatsResult.ok s) :
    alertAvailability values =
      (healthyCount values : ℚ) / (values.length : ℚ) ∧
    alertAvailability values ≤ s.availability ∧
    ((∃ r ∈ values, r.available = none) →
      (∃ r ∈ values, r.available = some true) →
      alertAvailability values < s.availability) := by
  obtain ⟨hne, rfl⟩ := (getStats_some_iff values s).mp h
  have hform : alertAvailability values =
      (healthyCount values : ℚ) / (values.length : ℚ) := by
    unfold alertAvailability
    rw [count_map_available]
  have hp : 0 < presentCount values := by
    rw [length_filterMap_available] at hne; omega
  have hPL : presentCount values ≤ values.length := by
    unfold presentCount; exact List.countP_le_length _
  have hpQ : (0 : ℚ) < (presentCount values : ℚ) := by exact_mod_cast hp
  have hPLQ : (presentCount values : ℚ) ≤ (values.length : ℚ) := by
    exact_mod_cast hPL
  refine ⟨hform, ?_, ?_⟩
  · rw [hform]
    simp only [statsAvailability_filterMap]
    exact div_le_div_of_nonneg_left (by positivity) hpQ hPLQ
  · rintro ⟨rn, hrn, hrnone⟩ ⟨rt, hrt, hrtrue⟩
    have hH : 0 < healthyCount values := by
      unfold healthyCount
      exact List.countP_pos_iff.mpr ⟨rt, hrt, by simp [hrtrue]⟩
    have hPLlt : presentCount values < values.length := by
      refine lt_of_le_of_ne hPL fun heq => ?_
      have := List.countP_eq_length.mp heq rn hrn
      rw [hrnone] at this
      simp at this
    rw [hform]
    simp only [statsAvailability_filterMap]
    exact div_lt_div_of_pos_left (by exact_mod_cast hH) hpQ
      (by exact_mod_cast hPLlt)

/-- Witness for C10: one True record plus one absent-availability record
gives `checkAlert` ratio 1/2 but `getStats` availability 1. -/
theorem alert_vs_stats_availability_witness :
    alertAvailability [⟨some true, none, none⟩, ⟨none, none, none⟩] <
      (Stats.mk 1 [none, none] RTStat.inf RTStat.inf
        RTStat.inf).availability :=
  (alert_vs_stats_availability
    [⟨some true, none, none⟩, ⟨none, none, none⟩]
    (Stats.mk 1 [none, none] RTStat.inf RTStat.inf RTStat.inf)
    (by norm_num [getStats, statsAvailability, avgRTOf, listMinD, listMaxD,
      List.filterMap_cons, List.count_cons])).2.2
    ⟨⟨none, none, none⟩, by simp, rfl⟩
    ⟨⟨some true, none, none⟩, by simp, rfl⟩

end Monitoring
